import Mathlib

/-
Verification of the CspChan channel library (CspChan.c) against its
specification.  The C code is shallowly embedded: byte buffers become
functions from addresses to byte values, the channel struct becomes a Lean
structure, and the unsigned short fields use explicit arithmetic modulo 2^16.
Blocking operations are modelled by passing both the channel state observed
at entry (c0) and the state observed when the wait loop exits (c1); a purely
sequential call has c0 = c1.  The pthread mutex and condition calls carry no
channel state; the only lock fact the claims need is whether a call returns
with the primary mutex (srMtx) still held, which is recorded explicitly.
-/

namespace CspChan

/-- Buf models a byte buffer as a map from byte offsets to byte values. -/
abbrev Buf := Nat → Nat

/-- Model of memcpy(buf + off, src, len): copy len bytes of src into buf at
offset off. -/
def memcpyIn (buf : Buf) (off : Nat) (src : Buf) (len : Nat) : Buf :=
  fun a => if off ≤ a ∧ a < off + len then src (a - off) else buf a

/-- Model of memcpy(dst, buf + off, len): copy len bytes starting at offset
off of buf into dst. -/
def memcpyOut (dst : Buf) (buf : Buf) (off : Nat) (len : Nat) : Buf :=
  fun a => if a < len then buf (off + a) else dst a

/-- Model of memset(dst, 0, len). -/
def memsetZero (dst : Buf) (len : Nat) : Buf :=
  fun a => if a < len then 0 else dst a

/-- First n bytes of a buffer, as a list (used to state byte-for-byte
properties). -/
def bytes (f : Buf) (n : Nat) : List Nat :=
  (List.range n).map f

/-- Increment of an unsigned short C value (used for msgCount++). -/
def inc16 (n : Nat) : Nat := (n + 1) % 65536

/-- Decrement of an unsigned short C value (used for msgCount--). -/
def dec16 (n : Nat) : Nat := (n + 65535) % 65536

/-- Model of struct CspChan_t.  The C union overlaying the buffered fields
(queueLen, msgCount, rIdx, wIdx) with the unbuffered dataPtr is flattened
into separate fields; the code only ever touches the fields of the active
variant, selected by the unbuffered flag.  dataPtrBuf holds the contents of
the caller buffer that dataPtr points at. -/
structure Chan where
  msgLen : Nat
  closed : Bool
  unbuffered : Bool
  barrierPhase : Nat
  expectingSender : Bool
  queueLen : Nat
  msgCount : Nat
  rIdx : Nat
  wIdx : Nat
  dataPtrBuf : Buf
  data : Buf

/-- Model of CspChan_create (malloc plus field initialization; the mutex and
condvar initialization carries no modelled state).  A zero msgLen is promoted
to 1 and a zero queueLen selects the unbuffered variant. -/
def CspChan_create (queueLen msgLen : Nat) : Chan :=
  let m := if msgLen = 0 then 1 else msgLen
  if queueLen = 0 then
    { msgLen := m, closed := false, unbuffered := true, barrierPhase := 0,
      expectingSender := false, queueLen := 0, msgCount := 0, rIdx := 0,
      wIdx := 0, dataPtrBuf := fun _ => 0, data := fun _ => 0 }
  else
    { msgLen := m, closed := false, unbuffered := false, barrierPhase := 0,
      expectingSender := false, queueLen := queueLen, msgCount := 0, rIdx := 0,
      wIdx := 0, dataPtrBuf := fun _ => 0, data := fun _ => 0 }

/-- Model of CspChan_close (the signalling performs no state change). -/
def CspChan_close (c : Chan) : Chan :=
  { c with closed := true }

/-- Model of the static helper is_full. -/
def is_full (c : Chan) : Bool := c.msgCount == c.queueLen

/-- Model of the static helper is_empty. -/
def is_empty (c : Chan) : Bool := c.msgCount == 0

/-- Model of the static helper send: enqueue one message into the ring
buffer, a no-op when the channel is closed. -/
def send (c : Chan) (data : Buf) : Chan :=
  if c.closed then c
  else
    { c with
      data := memcpyIn c.data (c.wIdx * c.msgLen) data c.msgLen,
      wIdx := (c.wIdx + 1) % c.queueLen,
      msgCount := inc16 c.msgCount }

/-- Model of the static helper receive: dequeue one message from the ring
buffer into data, a no-op when the channel is closed.  Returns the new
channel state and the new contents of the destination buffer. -/
def receive (c : Chan) (data : Buf) : Chan × Buf :=
  if c.closed then (c, data)
  else
    ({ c with
        rIdx := (c.rIdx + 1) % c.queueLen,
        msgCount := dec16 c.msgCount },
     memcpyOut data c.data (c.rIdx * c.msgLen) c.msgLen)

/-- Result of a CspChan_send call: the channel state on return and whether
the call released the primary mutex srMtx before returning. -/
structure SendResult where
  chan : Chan
  unlocked : Bool

/-- Result of a CspChan_receive call: the channel state on return, the
destination buffer contents on return, and whether the call released the
primary mutex srMtx before returning. -/
structure RecvResult where
  chan : Chan
  dst : Buf
  unlocked : Bool

/-- Model of CspChan_send.  c0 is the channel state when the call acquires
srMtx, c1 the state when the buffered wait loop exits (for a call that never
blocks, c1 = c0; the wait loop guarantees c1.closed or not is_full c1).
The unbuffered rendezvous path (synctwo) is inherently concurrent and not
modelled here, marked none. -/
def CspChan_send (c0 c1 : Chan) (dataPtr : Buf) : Option SendResult :=
  if c0.unbuffered then none
  else some { chan := send c1 dataPtr, unlocked := true }

/-- Model of CspChan_receive.  c0 is the channel state when the call acquires
srMtx, c1 the state when the buffered wait loop exits (for a call that never
blocks, c1 = c0; the wait loop guarantees c1.closed or not is_empty c1).
When the channel is found closed at entry the code zero-fills the destination
and returns without unlocking srMtx, which the model records as
unlocked = false.  The unbuffered rendezvous path (synctwo) is not modelled,
marked none. -/
def CspChan_receive (c0 c1 : Chan) (dataPtr : Buf) : Option RecvResult :=
  if c0.closed then
    some { chan := c0, dst := memsetZero dataPtr c0.msgLen, unlocked := false }
  else if c0.unbuffered then none
  else
    some { chan := (receive c1 dataPtr).1, dst := (receive c1 dataPtr).2,
           unlocked := true }

/-- Sequence of CspChan_receive calls on the same channel, threading the
channel state; used to express that once a channel is closed, no later
receive ever delivers a buffered message. -/
def receiveMany (c : Chan) : List Buf → Chan × List Buf
  | [] => (c, [])
  | d :: t =>
    match CspChan_receive c c d with
    | none => (c, [])
    | some r =>
      let rest := receiveMany r.chan t
      (rest.1, r.dst :: rest.2)

/-- Readiness test of the anyready scan for one channel, after its primary
mutex has been trylocked.  isRecv is true when the combined index lies in the
receiver range (i < rCount). -/
def readyTest (c : Chan) (isRecv : Bool) : Bool :=
  if c.unbuffered then
    c.barrierPhase == 1 &&
      ((c.expectingSender && !isRecv) || (!c.expectingSender && isRecv))
  else
    if isRecv then !(is_empty c) else !(is_full c)

/-- Combined channel array of a select call: receivers first, then senders,
each tagged with whether its combined index is a receiver index. -/
def chansOf (receiver sender : List Chan) : List (Chan × Bool) :=
  receiver.map (fun c => (c, true)) ++ sender.map (fun c => (c, false))

/-- Loop body of anyready over the combined channel array starting at
combined index i.  tryOk i tells whether the trylock of the channel at
combined index i succeeds.  Returns the ready array together with the
running counters n (ready channels, mutex kept) and closed (channels whose
closed flag was set, recorded not ready). -/
def anyreadyGo (tryOk : Nat → Bool) : Nat → List (Chan × Bool) →
    List (Option Chan) × Nat × Nat
  | _, [] => ([], 0, 0)
  | i, (c, isR) :: t =>
    let r := anyreadyGo tryOk (i + 1) t
    if c.closed then (none :: r.1, r.2.1, r.2.2 + 1)
    else if tryOk i then
      if readyTest c isR then (some c :: r.1, r.2.1 + 1, r.2.2)
      else (none :: r.1, r.2.1, r.2.2)
    else (none :: r.1, r.2.1, r.2.2)

/-- Model of the static helper anyready: scan all channels, record ready ones
(whose mutex stays held), and return the ready count, turned into -1 when no
channel is ready and at least one was closed. -/
def anyready (receiver sender : List Chan) (tryOk : Nat → Bool) :
    Int × List (Option Chan) :=
  let r := anyreadyGo tryOk 0 (chansOf receiver sender)
  (if r.2.1 = 0 ∧ r.2.2 ≠ 0 then -1 else (r.2.1 : Int), r.1)

/-- Walk of the doselect loop: cand counts down over the ready entries; the
entry where cand reaches 0 is chosen (index returned, mutex kept), every
other ready entry has its mutex released.  Returns the chosen channel with
its combined index, and the per-slot flags saying which mutexes are still
held after the walk. -/
def selectWalk : Int → List (Option Chan) → Option (Chan × Nat) × List Bool
  | _, [] => (none, [])
  | cand, none :: t =>
    let r := selectWalk cand t
    (r.1.map (fun p => (p.1, p.2 + 1)), false :: r.2)
  | cand, some c :: t =>
    if cand = 0 then
      let r := selectWalk (-1) t
      (some (c, 0), true :: r.2)
    else
      let r := selectWalk (cand - 1) t
      (r.1.map (fun p => (p.1, p.2 + 1)), false :: r.2)

/-- Transaction committed by doselect on the chosen channel c at combined
index n: direct copy and Handoff phase for an unbuffered channel, dequeue
for a receiver index, enqueue for a sender index.  Returns the new channel
state and the new receiver destination buffers. -/
def commit (c : Chan) (n rCount : Nat) (rData sData : List Buf) :
    Chan × List Buf :=
  if c.unbuffered then
    if rCount ≤ n then
      ({ c with
          dataPtrBuf :=
            memcpyIn c.dataPtrBuf 0 (sData.getD (n - rCount) (fun _ => 0))
              c.msgLen,
          barrierPhase := 2 }, rData)
    else
      ({ c with barrierPhase := 2 },
       rData.set n (memcpyOut (rData.getD n (fun _ => 0)) c.dataPtrBuf 0
         c.msgLen))
  else
    if n < rCount then
      let r := receive c (rData.getD n (fun _ => 0))
      (r.1, rData.set n r.2)
    else
      (send c (sData.getD (n - rCount) (fun _ => 0)), rData)

/-- Result of a doselect call: the return value, the ready array with the
chosen slot updated to the post-transaction channel state, the receiver
destination buffers, and the per-slot flags saying which primary mutexes the
select call still holds on return. -/
structure DoselectRes where
  ret : Int
  ready : List (Option Chan)
  rData : List Buf
  locked : List Bool

/-- Model of the static helper doselect.  rnd models the value returned by
rand().  When n is positive but the ready array holds fewer than n ready
entries the C code dereferences a null pointer; this is marked none. -/
def doselect (n : Int) (rnd : Nat) (rData sData : List Buf) (rCount : Nat)
    (ready : List (Option Chan)) : Option DoselectRes :=
  if n ≤ 0 then
    some { ret := -1, ready := ready, rData := rData,
           locked := ready.map Option.isSome }
  else
    let w := selectWalk ((rnd % n.toNat : Nat) : Int) ready
    match w.1 with
    | none => none
    | some p =>
      let t := commit p.1 p.2 rCount rData sData
      some { ret := (p.2 : Int), ready := ready.set p.2 (some t.1),
             rData := t.2, locked := w.2.set p.2 false }

/-- Model of the decision of the blocking CspChan_select: the observer
attach/detach and the select-frame mutex carry no channel state; the wait
loop keeps polling while anyready returns 0, so the decision is made on the
first poll whose result is nonzero.  The channel states given here are the
ones seen by that decisive poll; a poll that would return 0 (the call stays
parked, no decision) is marked none. -/
def CspChan_select (receiver sender : List Chan) (tryOk : Nat → Bool)
    (rnd : Nat) (rData sData : List Buf) : Option DoselectRes :=
  let a := anyready receiver sender tryOk
  if a.1 = 0 then none
  else doselect a.1 rnd rData sData receiver.length a.2

/-- One node of the signal registry: the C struct Signals holds SignalsCount
(three) nullable condition-variable pointers.  Condition variables are
identified by a numeric id; a none slot is vacant. -/
abbrev SigNode := List (Option Nat)

/-- Scan of one registry node by add_observer: place sig in the first vacant
slot if any, none when the node is full. -/
def setFirstVacant (sig : Nat) : SigNode → Option SigNode
  | [] => none
  | none :: t => some (some sig :: t)
  | some x :: t => (setFirstVacant sig t).map (fun t => some x :: t)

/-- Walk of the registry node list by add_observer: fill the first vacant
slot of the first node that has one; none when every node is full. -/
def addObs (sig : Nat) : List SigNode → Option (List SigNode)
  | [] => none
  | nd :: t =>
    match setFirstVacant sig nd with
    | some nd2 => some (nd2 :: t)
    | none => (addObs sig t).map (fun t => nd :: t)

/-- Model of the static helper add_observer.  The registry is the list of
nodes in search order: the head node embedded in the channel first, then the
extension nodes in the order of the next chain.  When every slot of every
node is occupied a fresh node carrying sig in its first slot is linked in
right after the head (it becomes the head of the extension list).  The code
mallocs that node and assigns only sig[0] and next, so its second and third
slots keep whatever indeterminate contents malloc handed over; junk1 and
junk2 model those two uninitialized slot values. -/
def add_observer (reg : List SigNode) (sig : Nat) (junk1 junk2 : Option Nat) :
    List SigNode :=
  match addObs sig reg with
  | some r => r
  | none =>
    match reg with
    | [] => [[some sig, junk1, junk2]]
    | h :: t => h :: [some sig, junk1, junk2] :: t

/-- Combined index of the first vacant (none) slot in flattened slot order;
used only to state what "first null slot" means. -/
def firstVacIdx : List (Option Nat) → Nat
  | [] => 0
  | none :: _ => 0
  | some _ :: t => firstVacIdx t + 1

/-- Invariant claimed for buffered channels: the message count never exceeds
the capacity. -/
def countInv (c : Chan) : Prop :=
  c.msgCount ≤ c.queueLen

instance (c : Chan) : Decidable (countInv c) :=
  inferInstanceAs (Decidable (c.msgCount ≤ c.queueLen))

/-! Concrete fixtures used by witnesses and counterexamples. -/

/-- Buffer holding all zero bytes. -/
def buf0 : Buf := fun _ => 0

/-- Buffer holding the byte 7 everywhere. -/
def buf7 : Buf := fun _ => 7

/-- Buffer whose byte at offset a is a + 5. -/
def bufInc : Buf := fun a => a + 5

/-- Trylock oracle under which every trylock succeeds. -/
def tryAll : Nat → Bool := fun _ => true

/-- Open buffered channel with capacity 1, message length 1, empty. -/
def cOpenE : Chan :=
  { msgLen := 1, closed := false, unbuffered := false, barrierPhase := 0,
    expectingSender := false, queueLen := 1, msgCount := 0, rIdx := 0,
    wIdx := 0, dataPtrBuf := buf0, data := buf0 }

/-- The channel cOpenE after CspChan_close. -/
def cClosedE : Chan :=
  { cOpenE with closed := true }

/-- Closed buffered channel with capacity 3 still holding 2 messages. -/
def cClosedF : Chan :=
  { msgLen := 1, closed := true, unbuffered := false, barrierPhase := 0,
    expectingSender := false, queueLen := 3, msgCount := 2, rIdx := 0,
    wIdx := 2, dataPtrBuf := buf0, data := buf7 }

/-- Open buffered channel with capacity 2, message length 2, empty, with the
read and write indices parked at slot 1. -/
def cOpen2 : Chan :=
  { msgLen := 2, closed := false, unbuffered := false, barrierPhase := 0,
    expectingSender := false, queueLen := 2, msgCount := 0, rIdx := 1,
    wIdx := 1, dataPtrBuf := buf0, data := buf0 }

/-! Helper lemmas (shared; named by no claim). -/

theorem bytes_eq_of (f g : Buf) (n : Nat) (h : ∀ a, a < n → f a = g a) :
    bytes f n = bytes g n := by
  unfold bytes
  induction n with
  | zero => rfl
  | succ m ih =>
    rw [List.range_succ, List.map_append, List.map_append]
    rw [ih (fun a ha => h a (Nat.lt_succ_of_lt ha))]
    simp [h m (Nat.lt_succ_self m)]

theorem bytes_const (v : Nat) (n : Nat) :
    bytes (fun _ => v) n = List.replicate n v := by
  unfold bytes
  induction n with
  | zero => rfl
  | succ m ih =>
    rw [List.range_succ, List.map_append, ih, List.replicate_succ']
    rfl

theorem bytes_memsetZero (d : Buf) (n : Nat) :
    bytes (memsetZero d n) n = List.replicate n 0 := by
  rw [bytes_eq_of (memsetZero d n) (fun _ => 0) n
    (fun a ha => by simp [memsetZero, ha])]
  exact bytes_const 0 n

/-! Claim theorems. -/

/-- Claim C3 (code bug evaluated on the code): when CspChan_receive finds the
channel closed at entry it zero-fills the destination but returns without
releasing the primary mutex srMtx, contradicting the specified behaviour
that every return path releases the mutex. -/
theorem receive_closed_entry_keeps_mutex_locked :
    (CspChan_receive cClosedE cClosedE buf7).map
        (fun r => (r.unlocked, bytes r.dst 1)) =
      some (false, [0]) := rfl

/-- Claim C6: on a closed buffered channel, CspChan_send returns with the
channel state completely unchanged (all fields identical), releasing the
mutex; the inner enqueue helper is likewise a no-op on a closed channel. -/
theorem send_on_closed_frame :
    (∀ (c : Chan) (d : Buf), c.closed = true → send c d = c) ∧
    (∀ (c : Chan) (d : Buf), c.closed = true → c.unbuffered = false →
      CspChan_send c c d = some { chan := c, unlocked := true }) := by
  constructor
  · intro c d h
    simp [send, h]
  · intro c d h hb
    simp [CspChan_send, hb, send, h]

/-- Witness for claim C6 at a concrete closed channel. -/
theorem send_on_closed_frame_witness :
    CspChan_send cClosedE cClosedE buf7 =
      some { chan := cClosedE, unlocked := true } :=
  send_on_closed_frame.2 cClosedE buf7 rfl rfl

/-- Claim C10: when the channel is already closed at the time
CspChan_receive is called, the call zero-fills all msgLen destination bytes
and leaves the channel state untouched (no dequeue, whatever msgCount is),
and any sequence of later receives again yields only zero-filled buffers
with the channel state still untouched, so buffered messages are never
delivered after close. -/
theorem receive_on_closed_zero_and_no_dequeue :
    ∀ (c0 c1 : Chan) (dst : Buf), c0.closed = true →
      (CspChan_receive c0 c1 dst =
          some { chan := c0, dst := memsetZero dst c0.msgLen,
                 unlocked := false } ∧
        bytes (memsetZero dst c0.msgLen) c0.msgLen =
          List.replicate c0.msgLen 0) ∧
      ∀ dsts : List Buf,
        (receiveMany c0 dsts).1 = c0 ∧
        (receiveMany c0 dsts).2.map (fun d => bytes d c0.msgLen) =
          dsts.map (fun _ => List.replicate c0.msgLen 0) := by
  intro c0 c1 dst h
  refine ⟨⟨by simp [CspChan_receive, h], bytes_memsetZero _ _⟩, ?_⟩
  intro dsts
  induction dsts with
  | nil => simp [receiveMany]
  | cons d t ih =>
    simp only [receiveMany, CspChan_receive, h, if_true]
    simpa [bytes_memsetZero] using ih

/-- Witness for claim C10 at a closed channel still holding 2 buffered
messages. -/
theorem receive_on_closed_zero_and_no_dequeue_witness :
    cClosedF.msgCount = 2 ∧
    (CspChan_receive cClosedF cClosedF buf7 =
        some { chan := cClosedF, dst := memsetZero buf7 1,
               unlocked := false } ∧
      bytes (memsetZero buf7 1) 1 = List.replicate 1 0) ∧
    (receiveMany cClosedF [buf7, bufInc]).1 = cClosedF ∧
    (receiveMany cClosedF [buf7, bufInc]).2.map (fun d => bytes d 1) =
      [buf7, bufInc].map (fun _ => List.replicate 1 0) :=
  ⟨rfl,
   (receive_on_closed_zero_and_no_dequeue cClosedF cClosedF buf7 rfl).1,
   ((receive_on_closed_zero_and_no_dequeue cClosedF cClosedF buf7 rfl).2
     [buf7, bufInc]).1,
   ((receive_on_closed_zero_and_no_dequeue cClosedF cClosedF buf7 rfl).2
     [buf7, bufInc]).2⟩

/-- Claim C2 counterexample: a receiver that blocked on the open empty
channel cOpenE and woke up because the channel was closed meanwhile
(loop-exit state cClosedE, still empty) returns with the destination buffer
untouched (byte value 7), not zero-filled. -/
theorem receive_closed_while_blocked_not_zeroed :
    cOpenE.closed = false ∧ cClosedE.closed = true ∧
    cClosedE.msgCount = 0 ∧
    (CspChan_receive cOpenE cClosedE buf7).map (fun r => bytes r.dst 1) =
      some [7] ∧
    [7] ≠ List.replicate 1 0 :=
  ⟨rfl, rfl, rfl, rfl, by decide⟩

/-- Claim C2 as amended: the destination is zero-filled over all msgLen
bytes exactly when the channel was already closed when CspChan_receive was
called; when the channel becomes closed only while the caller is blocked on
an empty buffer, the call returns with the destination unchanged. -/
theorem receive_zero_fill_only_when_closed_at_entry :
    ∀ (c0 c1 : Chan) (dst : Buf),
      (c0.closed = true →
        CspChan_receive c0 c1 dst =
          some { chan := c0, dst := memsetZero dst c0.msgLen,
                 unlocked := false } ∧
        bytes (memsetZero dst c0.msgLen) c0.msgLen =
          List.replicate c0.msgLen 0) ∧
      (c0.closed = false → c0.unbuffered = false → c1.closed = true →
        c1.msgCount = 0 →
        CspChan_receive c0 c1 dst =
          some { chan := c1, dst := dst, unlocked := true }) := by
  intro c0 c1 dst
  constructor
  · intro h
    exact ⟨by simp [CspChan_receive, h], bytes_memsetZero _ _⟩
  · intro h0 hb h1 _
    simp [CspChan_receive, h0, hb, receive, h1]

/-- Witness for claim C2 (amended), covering both the closed-at-entry branch
and the closed-while-blocked branch at concrete channels. -/
theorem receive_zero_fill_only_when_closed_at_entry_witness :
    (CspChan_receive cClosedE cClosedE buf7 =
        some { chan := cClosedE, dst := memsetZero buf7 1,
               unlocked := false } ∧
      bytes (memsetZero buf7 1) 1 = List.replicate 1 0) ∧
    CspChan_receive cOpenE cClosedE buf7 =
      some { chan := cClosedE, dst := buf7, unlocked := true } :=
  ⟨(receive_zero_fill_only_when_closed_at_entry cClosedE cClosedE buf7).1 rfl,
   (receive_zero_fill_only_when_closed_at_entry cOpenE cClosedE buf7).2
     rfl rfl rfl rfl⟩

theorem roundtrip_byte (c : Chan) (x y : Buf) (hcl : c.closed = false)
    (hrw : c.rIdx = c.wIdx) (a : Nat) (ha : a < c.msgLen) :
    (receive (send c x) y).2 a = x a := by
  simp only [send, receive, hcl, Bool.false_eq_true, if_false]
  simp only [memcpyOut, memcpyIn, ha, if_true, hrw]
  rw [if_pos (And.intro (Nat.le_add_right _ _) (by omega))]
  rw [Nat.add_sub_cancel_left]

/-- Claim C4: on an open buffered channel with an empty buffer (read and
write indices coinciding, as on every reachable empty state), a CspChan_send
followed by a CspChan_receive delivers the sent payload byte-for-byte over
all msgLen bytes, for every capacity and every payload. -/
theorem send_then_receive_roundtrip :
    ∀ (c : Chan) (x y : Buf), c.closed = false → c.unbuffered = false →
      c.msgCount = 0 → c.rIdx = c.wIdx →
      CspChan_send c c x = some { chan := send c x, unlocked := true } ∧
      (CspChan_receive (send c x) (send c x) y).map
          (fun r => bytes r.dst c.msgLen) =
        some (bytes x c.msgLen) := by
  intro c x y hcl hb _ hrw
  have hscl : (send c x).closed = false := by simp [send, hcl]
  have hsub : (send c x).unbuffered = false := by simp [send, hcl, hb]
  refine ⟨by simp [CspChan_send, hb], ?_⟩
  simp only [CspChan_receive, hscl, hsub, Bool.false_eq_true, if_false,
    Option.map_some']
  exact congrArg some
    (bytes_eq_of _ _ _ (fun a ha => roundtrip_byte c x y hcl hrw a ha))

/-- Witness for claim C4 at a concrete channel of capacity 2 and message
length 2 with indices parked at slot 1, payload bytes 5 and 6. -/
theorem send_then_receive_roundtrip_witness :
    CspChan_send cOpen2 cOpen2 bufInc =
      some { chan := send cOpen2 bufInc, unlocked := true } ∧
    (CspChan_receive (send cOpen2 bufInc) (send cOpen2 bufInc) buf7).map
        (fun r => bytes r.dst 2) =
      some (bytes bufInc 2) :=
  send_then_receive_roundtrip cOpen2 bufInc buf7 rfl rfl rfl rfl

/-! Arithmetic helpers for the unsigned short counter. -/

theorem inc16_eq (n : Nat) (h : n + 1 < 65536) : inc16 n = n + 1 :=
  Nat.mod_eq_of_lt h

theorem dec16_eq (n : Nat) (h0 : 0 < n) (h : n < 65536) :
    dec16 n = n - 1 := by
  unfold dec16
  have h1 : n + 65535 = (n - 1) + 65536 := by omega
  rw [h1, Nat.add_mod_right]
  exact Nat.mod_eq_of_lt (by omega)

theorem send_countInv (c : Chan) (d : Buf) (hw : c.queueLen < 65536)
    (hinv : countInv c) (hg : c.closed = true ∨ is_full c = false) :
    countInv (send c d) := by
  rcases hg with hcl | hnf
  · simpa [send, hcl] using hinv
  · unfold send countInv
    by_cases hcl : c.closed
    · simpa [hcl] using hinv
    · have hlt : c.msgCount < c.queueLen := by
        unfold is_full at hnf
        unfold countInv at hinv
        simp only [beq_eq_false_iff_ne, ne_eq] at hnf
        omega
      simp only [hcl, if_false]
      show inc16 c.msgCount ≤ c.queueLen
      rw [inc16_eq c.msgCount (by omega)]
      omega

theorem receive_countInv (c : Chan) (d : Buf) (hw : c.queueLen < 65536)
    (hinv : countInv c) (hg : c.closed = true ∨ is_empty c = false) :
    countInv (receive c d).1 := by
  rcases hg with hcl | hne
  · simpa [receive, hcl] using hinv
  · unfold receive countInv
    by_cases hcl : c.closed
    · simpa [hcl] using hinv
    · have hpos : 0 < c.msgCount := by
        unfold is_empty at hne
        simp only [beq_eq_false_iff_ne, ne_eq] at hne
        omega
      have hlt : c.msgCount < 65536 := by
        unfold countInv at hinv
        omega
      simp only [hcl, if_false]
      show dec16 c.msgCount ≤ c.queueLen
      rw [dec16_eq c.msgCount hpos hlt]
      unfold countInv at hinv
      omega

/-- Claim C5: the invariant msgCount ≤ queueLen holds after CspChan_create
and is preserved by the enqueue path of CspChan_send (whose wait loop only
lets an enqueue happen when the channel is closed, a no-op, or not full),
by the dequeue path of CspChan_receive (dequeue only on a closed no-op or a
non-empty buffer), by CspChan_close, and by the doselect commit, whose
chosen channel passed the anyready readiness test (not empty for a receiver
index, not full for a sender index).  The bound 65536 is the size of the
unsigned short fields. -/
theorem count_invariant_preserved :
    (∀ q m : Nat, countInv (CspChan_create q m)) ∧
    (∀ (c : Chan) (d : Buf), c.queueLen < 65536 → countInv c →
      (c.closed = true ∨ is_full c = false) → countInv (send c d)) ∧
    (∀ (c : Chan) (d : Buf), c.queueLen < 65536 → countInv c →
      (c.closed = true ∨ is_empty c = false) → countInv (receive c d).1) ∧
    (∀ c : Chan, countInv c → countInv (CspChan_close c)) ∧
    (∀ (c : Chan) (idx rCount : Nat) (rData sData : List Buf),
      c.queueLen < 65536 → countInv c → c.closed = false →
      c.unbuffered = false → readyTest c (decide (idx < rCount)) = true →
      countInv (commit c idx rCount rData sData).1) := by
  refine ⟨?_, send_countInv, receive_countInv, ?_, ?_⟩
  · intro q m
    unfold CspChan_create countInv
    by_cases hq : q = 0 <;> simp [hq]
  · intro c hinv
    simpa [CspChan_close, countInv] using hinv
  · intro c idx rCount rData sData hw hinv hcl hb hr
    unfold commit
    by_cases hi : idx < rCount
    · have hne : is_empty c = false := by
        revert hr
        simp [readyTest, hb, hi]
      simp only [hb, if_false, hi, if_true]
      exact receive_countInv c _ hw hinv (Or.inr hne)
    · have hnf : is_full c = false := by
        revert hr
        simp [readyTest, hb, hi]
      simp only [hb, if_false, hi]
      exact send_countInv c _ hw hinv (Or.inr hnf)

/-- Witness for claim C5 exercising each conjunct at concrete channels: a
fresh channel, an enqueue on the open empty channel, a dequeue on a channel
holding one message, a close, and a doselect commit on a ready receiver
slot. -/
theorem count_invariant_preserved_witness :
    countInv (CspChan_create 3 4) ∧
    countInv (send cOpenE buf7) ∧
    countInv (receive (send cOpenE buf7) buf0).1 ∧
    countInv (CspChan_close cOpenE) ∧
    countInv (commit (send cOpenE buf7) 0 1 [buf0] []).1 :=
  ⟨count_invariant_preserved.1 3 4,
   count_invariant_preserved.2.1 cOpenE buf7 (by decide) (by decide)
     (Or.inr rfl),
   count_invariant_preserved.2.2.1 (send cOpenE buf7) buf0 (by decide)
     (by decide) (Or.inr rfl),
   count_invariant_preserved.2.2.2.1 cOpenE (by decide),
   count_invariant_preserved.2.2.2.2 (send cOpenE buf7) 0 1 [buf0] []
     (by decide) (by decide) rfl rfl rfl⟩

theorem anyreadyGo_spec (tryOk : Nat → Bool) :
    ∀ (l : List (Chan × Bool)) (i : Nat),
      (anyreadyGo tryOk i l).1.length = l.length ∧
      (anyreadyGo tryOk i l).2.1 =
        (anyreadyGo tryOk i l).1.countP (fun o => o.isSome) ∧
      (anyreadyGo tryOk i l).2.2 = l.countP (fun p => p.1.closed) ∧
      (l.zip (anyreadyGo tryOk i l).1).all
        (fun p => !p.1.1.closed || p.2.isNone) = true := by
  intro l
  induction l with
  | nil => intro i; simp [anyreadyGo]
  | cons hd t ih =>
    intro i
    obtain ⟨c, isR⟩ := hd
    obtain ⟨ih1, ih2, ih3, ih4⟩ := ih (i + 1)
    by_cases hc : c.closed
    · simp [anyreadyGo, hc, ih1, ih2, ih3, ih4]
    · by_cases ht : tryOk i
      · by_cases hr : readyTest c isR
        · simp [anyreadyGo, hc, ht, hr, ih1, ih2, ih3, ih4]
        · simp [anyreadyGo, hc, ht, hr, ih1, ih2, ih3, ih4]
      · simp [anyreadyGo, hc, ht, ih1, ih2, ih3, ih4]

/-- Claim C7: the anyready scan returns the number of channels recorded
ready, except that the return value is -1 exactly when that number is 0 and
at least one scanned channel had its closed flag set; and a channel whose
closed flag is set is always recorded not ready (its ready slot is none). -/
theorem anyready_spec :
    ∀ (receiver sender : List Chan) (tryOk : Nat → Bool),
      (anyready receiver sender tryOk).1 =
        (if (anyready receiver sender tryOk).2.countP
              (fun o => o.isSome) = 0 ∧
            0 < (chansOf receiver sender).countP (fun p => p.1.closed)
         then -1
         else ((anyready receiver sender tryOk).2.countP
            (fun o => o.isSome) : Int)) ∧
      ((chansOf receiver sender).zip (anyready receiver sender tryOk).2).all
        (fun p => !p.1.1.closed || p.2.isNone) = true := by
  intro receiver sender tryOk
  obtain ⟨_, h2, h3, h4⟩ := anyreadyGo_spec tryOk (chansOf receiver sender) 0
  constructor
  · show (if _ ∧ _ then _ else _) = _
    rw [h2, h3]
    have : ((anyreadyGo tryOk 0 (chansOf receiver sender)).1.countP
        (fun o => o.isSome) = 0 ∧
        (chansOf receiver sender).countP (fun p => p.1.closed) ≠ 0) ↔
        ((anyready receiver sender tryOk).2.countP (fun o => o.isSome) = 0 ∧
        0 < (chansOf receiver sender).countP (fun p => p.1.closed)) := by
      unfold anyready
      constructor
      · rintro ⟨a, b⟩; exact ⟨a, Nat.pos_of_ne_zero b⟩
      · rintro ⟨a, b⟩; exact ⟨a, Nat.pos_iff_ne_zero.mp b⟩
    rw [if_congr this rfl rfl]
    rfl
  · exact h4

theorem selectWalk_neg :
    ∀ (l : List (Option Chan)) (cand : Int), cand < 0 →
      selectWalk cand l = (none, List.replicate l.length false) := by
  intro l
  induction l with
  | nil => intro cand _; simp [selectWalk]
  | cons hd t ih =>
    intro cand h
    cases hd with
    | none => simp [selectWalk, ih cand h, List.replicate_succ]
    | some c =>
      have hne : ¬ cand = 0 := by omega
      simp [selectWalk, hne, ih (cand - 1) (by omega), List.replicate_succ]

theorem set_replicate_self (a : Bool) :
    ∀ (n i : Nat), (List.replicate n a).set i a = List.replicate n a := by
  intro n
  induction n with
  | zero => intro i; simp
  | succ m ih =>
    intro i
    cases i with
    | zero => simp [List.replicate_succ]
    | succ j => simp [List.replicate_succ, List.set_cons_succ, ih j]

theorem selectWalk_spec :
    ∀ (l : List (Option Chan)) (k : Nat) (c : Chan) (idx : Nat),
      (selectWalk (k : Int) l).1 = some (c, idx) →
      l.get? idx = some (some c) ∧
      (l.take idx).countP (fun o => o.isSome) = k ∧
      (selectWalk (k : Int) l).2 =
        (List.replicate l.length false).set idx true := by
  intro l
  induction l with
  | nil => intro k c idx h; simp [selectWalk] at h
  | cons hd t ih =>
    intro k c idx h
    cases hd with
    | none =>
      simp only [selectWalk] at h ⊢
      cases hw : (selectWalk (k : Int) t).1 with
      | none => rw [hw] at h; simp at h
      | some p =>
        rw [hw] at h
        simp only [Option.map_some'] at h
        obtain ⟨hc, hidx⟩ := Prod.mk.injEq .. ▸ Option.some.injEq .. ▸ h
        obtain ⟨g1, g2, g3⟩ := ih k p.1 p.2 hw
        subst hc
        cases idx with
        | zero => omega
        | succ j =>
          have hj : p.2 = j := by omega
          subst hj
          refine ⟨by simpa using g1, by simpa using g2, ?_⟩
          simp [g3, List.replicate_succ]
    | some c0 =>
      by_cases hk : k = 0
      · subst hk
        simp only [selectWalk, Int.ofNat_eq_coe, Nat.cast_zero,
          if_pos rfl] at h ⊢
        obtain ⟨hc, hidx⟩ := Prod.mk.injEq .. ▸ Option.some.injEq .. ▸ h
        subst hc
        subst hidx
        refine ⟨rfl, rfl, ?_⟩
        rw [(selectWalk_neg t (-1) (by omega))]
        simp [List.replicate_succ]
      · have hki : ¬ ((k : Int) = 0) := by
          simpa using hk
        obtain ⟨k0, rfl⟩ : ∃ k0, k = k0 + 1 :=
          ⟨k - 1, by omega⟩
        have hcast : (((k0 + 1 : Nat) : Int)) - 1 = ((k0 : Nat) : Int) := by
          omega
        simp only [selectWalk, hki, if_false, hcast] at h ⊢
        cases hw : (selectWalk ((k0 : Nat) : Int) t).1 with
        | none => rw [hw] at h; simp at h
        | some p =>
          rw [hw] at h
          simp only [Option.map_some'] at h
          obtain ⟨hc, hidx⟩ := Prod.mk.injEq .. ▸ Option.some.injEq .. ▸ h
          obtain ⟨g1, g2, g3⟩ := ih k0 p.1 p.2 hw
          subst hc
          cases idx with
          | zero => omega
          | succ j =>
            have hj : p.2 = j := by omega
            subst hj
            refine ⟨by simpa using g1, ?_, ?_⟩
            · simp [g2]
            · simp [g3, List.replicate_succ]

theorem selectWalk_isSome :
    ∀ (l : List (Option Chan)) (k : Nat),
      k < l.countP (fun o => o.isSome) →
      ((selectWalk (k : Int) l).1).isSome = true := by
  intro l
  induction l with
  | nil => intro k h; simp at h
  | cons hd t ih =>
    intro k h
    cases hd with
    | none =>
      simp only [List.countP_cons, Option.isSome_none] at h
      simp only [selectWalk, Option.isSome_map']
      exact ih k (by simpa using h)
    | some c0 =>
      by_cases hk : k = 0
      · subst hk
        simp [selectWalk]
      · have hki : ¬ ((k : Int) = 0) := by simpa using hk
        obtain ⟨k0, rfl⟩ : ∃ k0, k = k0 + 1 := ⟨k - 1, by omega⟩
        have hcast : (((k0 + 1 : Nat) : Int)) - 1 = ((k0 : Nat) : Int) := by
          omega
        simp only [selectWalk, hki, if_false, hcast, Option.isSome_map']
        apply ih k0
        simp only [List.countP_cons] at h
        simp at h
        omega

/-- Claim C8: with n non-positive, doselect returns -1 and performs no
transaction (ready array, destination buffers and lock set all unchanged);
with n positive and n ready entries, the walk always finds a chosen entry,
namely the (rand mod n)-th ready entry in array order (entry at combined
index idx with exactly rand mod n ready entries before it), the walk
releases the mutex of every other ready entry (only slot idx stays locked),
the commit performs the single transaction of the chosen channel and
releases its mutex too, and the call returns the combined index idx. -/
theorem doselect_spec :
    (∀ (n : Int) (rnd : Nat) (rData sData : List Buf) (rCount : Nat)
        (ready : List (Option Chan)), n ≤ 0 →
      doselect n rnd rData sData rCount ready =
        some { ret := -1, ready := ready, rData := rData,
               locked := ready.map Option.isSome }) ∧
    (∀ (n : Int) (rnd : Nat) (ready : List (Option Chan)), 0 < n →
      ready.countP (fun o => o.isSome) = n.toNat →
      ((selectWalk ((rnd % n.toNat : Nat) : Int) ready).1).isSome = true) ∧
    (∀ (n : Int) (rnd : Nat) (rData sData : List Buf) (rCount : Nat)
        (ready : List (Option Chan)) (c : Chan) (idx : Nat), 0 < n →
      (selectWalk ((rnd % n.toNat : Nat) : Int) ready).1 = some (c, idx) →
      ready.get? idx = some (some c) ∧
      (ready.take idx).countP (fun o => o.isSome) = rnd % n.toNat ∧
      (selectWalk ((rnd % n.toNat : Nat) : Int) ready).2 =
        (List.replicate ready.length false).set idx true ∧
      doselect n rnd rData sData rCount ready =
        some { ret := (idx : Int),
               ready := ready.set idx
                 (some (commit c idx rCount rData sData).1),
               rData := (commit c idx rCount rData sData).2,
               locked := List.replicate ready.length false }) := by
  refine ⟨?_, ?_, ?_⟩
  · intro n rnd rData sData rCount ready h
    simp [doselect, h]
  · intro n rnd ready hn hcnt
    apply selectWalk_isSome
    rw [hcnt]
    exact Nat.mod_lt rnd (by omega)
  · intro n rnd rData sData rCount ready c idx hn hw
    obtain ⟨g1, g2, g3⟩ := selectWalk_spec ready (rnd % n.toNat) c idx hw
    refine ⟨g1, g2, g3, ?_⟩
    have hnle : ¬ n ≤ 0 := by omega
    simp only [doselect, hnle, if_false, hw, g3]
    rw [List.set_set, set_replicate_self]

/-- Witness for claim C8: the non-positive branch at n = -1, and the
positive branch on a concrete ready array of two ready entries at combined
indices 1 and 2 with rand = 1, which picks index 2 (one ready entry before
it). -/
theorem doselect_spec_witness :
    doselect (-1) 0 [buf7] [] 1 [none, some cOpenE] =
      some { ret := -1, ready := [none, some cOpenE], rData := [buf7],
             locked := [false, true] } ∧
    ((selectWalk ((1 % (2 : Int).toNat : Nat) : Int)
        [none, some cOpenE, some cOpen2]).1).isSome = true ∧
    ([none, some cOpenE, some cOpen2].get? 2 = some (some cOpen2) ∧
      ([none, some cOpenE, some cOpen2].take 2).countP
        (fun o => o.isSome) = 1 % (2 : Int).toNat ∧
      (selectWalk ((1 % (2 : Int).toNat : Nat) : Int)
          [none, some cOpenE, some cOpen2]).2 =
        (List.replicate 3 false).set 2 true ∧
      doselect 2 1 [buf7] [bufInc, bufInc]  1
          [none, some cOpenE, some cOpen2] =
        some { ret := (2 : Nat),
               ready := [none, some cOpenE, some cOpen2].set 2
                 (some (commit cOpen2 2 1 [buf7] [bufInc, bufInc]).1),
               rData := (commit cOpen2 2 1 [buf7] [bufInc, bufInc]).2,
               locked := List.replicate 3 false }) :=
  ⟨doselect_spec.1 (-1) 0 [buf7] [] 1 [none, some cOpenE] (by omega),
   doselect_spec.2.1 2 1 [none, some cOpenE, some cOpen2] (by omega) rfl,
   doselect_spec.2.2 2 1 [buf7] [bufInc, bufInc] 1
     [none, some cOpenE, some cOpen2] cOpen2 2 (by omega) rfl⟩

theorem anyready_fst (receiver sender : List Chan) (tryOk : Nat → Bool) :
    (anyready receiver sender tryOk).1 =
      (if (anyreadyGo tryOk 0 (chansOf receiver sender)).2.1 = 0 ∧
          (anyreadyGo tryOk 0 (chansOf receiver sender)).2.2 ≠ 0
       then -1
       else ((anyreadyGo tryOk 0 (chansOf receiver sender)).2.1 : Int)) :=
  rfl

theorem anyready_snd (receiver sender : List Chan) (tryOk : Nat → Bool) :
    (anyready receiver sender tryOk).2 =
      (anyreadyGo tryOk 0 (chansOf receiver sender)).1 :=
  rfl

/-- Claim C1 counterexample: a blocking select over the two receiver
channels cOpenE (open, buffered, empty) and cClosedE (closed) decides and
returns -1 although cOpenE is still open, because anyready reports -1 as
soon as no channel is ready and at least one channel is closed. -/
theorem select_neg_one_with_open_channel :
    (CspChan_select [cOpenE, cClosedE] [] tryAll 0 [buf7, buf7] []).map
        (fun r => r.ret) = some (-1) ∧
    cOpenE.closed = false :=
  ⟨rfl, rfl⟩

/-- Claim C1 as amended: the blocking select returns -1 only if, at the
moment the decision is made, no input channel is ready and at least one
input channel has its closed flag set; it can return -1 while other input
channels are still open. -/
theorem select_neg_one_requires_closed :
    ∀ (receiver sender : List Chan) (tryOk : Nat → Bool) (rnd : Nat)
      (rData sData : List Buf) (res : DoselectRes),
      CspChan_select receiver sender tryOk rnd rData sData = some res →
      res.ret = -1 →
      (anyready receiver sender tryOk).2.countP (fun o => o.isSome) = 0 ∧
      0 < (chansOf receiver sender).countP (fun p => p.1.closed) := by
  intro receiver sender tryOk rnd rData sData res hsel hret
  by_cases h0 : (anyready receiver sender tryOk).1 = 0
  · simp [CspChan_select, h0] at hsel
  · simp only [CspChan_select, h0, if_false] at hsel
    by_cases hle : (anyready receiver sender tryOk).1 ≤ 0
    · have hneg : (anyready receiver sender tryOk).1 < 0 := by omega
      rw [anyready_fst] at hneg
      by_cases hcond :
          ((anyreadyGo tryOk 0 (chansOf receiver sender)).2.1 = 0 ∧
            (anyreadyGo tryOk 0 (chansOf receiver sender)).2.2 ≠ 0)
      · obtain ⟨hc1, hc2⟩ := hcond
        obtain ⟨_, h2, h3, _⟩ :=
          anyreadyGo_spec tryOk (chansOf receiver sender) 0
        constructor
        · rw [anyready_snd]
          omega
        · omega
      · rw [if_neg hcond] at hneg
        omega
    · have hpos : ¬ (anyready receiver sender tryOk).1 ≤ 0 := hle
      simp only [doselect, hpos, if_false] at hsel
      cases hw : (selectWalk
          (((rnd % (anyready receiver sender tryOk).1.toNat : Nat)) : Int)
          (anyready receiver sender tryOk).2).1 with
      | none => rw [hw] at hsel; simp at hsel
      | some p =>
        rw [hw] at hsel
        simp only [Option.some.injEq] at hsel
        have : res.ret = (p.2 : Int) := by rw [← hsel]
        omega

/-- Witness for claim C1 (amended) at the concrete decision of the
counterexample run: two receiver channels, one open and empty, one closed,
no ready channel, result -1. -/
theorem select_neg_one_requires_closed_witness :
    (anyready [cOpenE, cClosedE] [] tryAll).2.countP
        (fun o => o.isSome) = 0 ∧
    0 < (chansOf [cOpenE, cClosedE] []).countP (fun p => p.1.closed) :=
  select_neg_one_requires_closed [cOpenE, cClosedE] [] tryAll 0
    [buf7, buf7] []
    { ret := -1, ready := [none, none], rData := [buf7, buf7],
      locked := [false, false] }
    rfl rfl

theorem set_append_left (x : Option Nat) :
    ∀ (l1 l2 : List (Option Nat)) (i : Nat), i < l1.length →
      (l1 ++ l2).set i x = l1.set i x ++ l2 := by
  intro l1
  induction l1 with
  | nil => intro l2 i h; simp at h
  | cons a t ih =>
    intro l2 i h
    cases i with
    | zero => simp
    | succ j => simp [ih l2 j (by simpa using h)]

theorem set_append_right (x : Option Nat) :
    ∀ (l1 l2 : List (Option Nat)) (i : Nat),
      (l1 ++ l2).set (l1.length + i) x = l1 ++ l2.set i x := by
  intro l1
  induction l1 with
  | nil => intro l2 i; simp
  | cons a t ih =>
    intro l2 i
    have : t.length + 1 + i = (t.length + i) + 1 := by omega
    simp only [List.cons_append, List.length_cons, this, List.set_cons_succ]
    rw [ih l2 i]

theorem firstVacIdx_lt :
    ∀ nd : List (Option Nat), none ∈ nd → firstVacIdx nd < nd.length := by
  intro nd
  induction nd with
  | nil => intro h; simp at h
  | cons hd t ih =>
    intro h
    cases hd with
    | none => simp [firstVacIdx]
    | some x =>
      have ht : none ∈ t := by simpa using h
      simpa [firstVacIdx] using ih ht

theorem firstVacIdx_append_left :
    ∀ (nd l : List (Option Nat)), none ∈ nd →
      firstVacIdx (nd ++ l) = firstVacIdx nd := by
  intro nd
  induction nd with
  | nil => intro l h; simp at h
  | cons hd t ih =>
    intro l h
    cases hd with
    | none => simp [firstVacIdx]
    | some x =>
      have ht : none ∈ t := by simpa using h
      simp [firstVacIdx, ih l ht]

theorem firstVacIdx_append_right :
    ∀ (nd l : List (Option Nat)), ¬ none ∈ nd →
      firstVacIdx (nd ++ l) = nd.length + firstVacIdx l := by
  intro nd
  induction nd with
  | nil => intro l _; simp
  | cons hd t ih =>
    intro l h
    cases hd with
    | none => simp at h
    | some x =>
      have ht : ¬ none ∈ t := fun hc => h (by simp [hc])
      simp [firstVacIdx, ih l ht]
      omega

theorem sfv_of_vac (sig : Nat) :
    ∀ nd : SigNode, none ∈ nd →
      setFirstVacant sig nd =
        some (nd.set (firstVacIdx nd) (some sig)) := by
  intro nd
  induction nd with
  | nil => intro h; simp at h
  | cons hd t ih =>
    intro h
    cases hd with
    | none => simp [setFirstVacant, firstVacIdx]
    | some x =>
      have ht : none ∈ t := by simpa using h
      simp [setFirstVacant, firstVacIdx, ih ht]

theorem sfv_full (sig : Nat) :
    ∀ nd : SigNode, ¬ none ∈ nd → setFirstVacant sig nd = none := by
  intro nd
  induction nd with
  | nil => intro _; rfl
  | cons hd t ih =>
    intro h
    cases hd with
    | none => simp at h
    | some x =>
      have ht : ¬ none ∈ t := fun hc => h (by simp [hc])
      simp [setFirstVacant, ih ht]

theorem addObs_of_vac (sig : Nat) :
    ∀ reg : List SigNode, none ∈ reg.flatten →
      ∃ r, addObs sig reg = some r ∧
        r.map List.length = reg.map List.length ∧
        r.flatten = reg.flatten.set (firstVacIdx reg.flatten) (some sig) := by
  intro reg
  induction reg with
  | nil => intro h; simp at h
  | cons nd t ih =>
    intro h
    by_cases hnd : none ∈ nd
    · refine ⟨nd.set (firstVacIdx nd) (some sig) :: t, ?_, ?_, ?_⟩
      · simp [addObs, sfv_of_vac sig nd hnd]
      · simp
      · simp only [List.flatten_cons]
        rw [firstVacIdx_append_left nd t.flatten hnd,
          set_append_left _ nd t.flatten _ (firstVacIdx_lt nd hnd)]
    · have ht : none ∈ t.flatten := by
        rcases (by simpa using h : none ∈ nd ∨ none ∈ t.flatten) with hc | hc
        · exact absurd hc hnd
        · exact hc
      obtain ⟨r, hr, h1, h2⟩ := ih ht
      refine ⟨nd :: r, ?_, ?_, ?_⟩
      · simp [addObs, sfv_full sig nd hnd, hr]
      · simp [h1]
      · simp only [List.flatten_cons]
        rw [h2, firstVacIdx_append_right nd t.flatten hnd,
          set_append_right _ nd t.flatten _]

theorem addObs_full (sig : Nat) :
    ∀ reg : List SigNode, ¬ none ∈ reg.flatten → addObs sig reg = none := by
  intro reg
  induction reg with
  | nil => intro _; rfl
  | cons nd t ih =>
    intro h
    have hnd : ¬ none ∈ nd := fun hc => h (by simp [hc])
    have ht : ¬ none ∈ t.flatten := fun hc => h (by simp [hc])
    simp [addObs, sfv_full sig nd hnd, ih ht]

/-- Claim C9 (code bug evaluated on the code): when every slot of every
node of the registry is occupied, add_observer places the fresh extension
node right after the head with the pointer in its first slot, but the node
is allocated with malloc and only its first slot and next link are assigned
(CspChan.c lines 152 to 155), so its remaining slots keep the indeterminate
allocation contents instead of being vacant (null) as the claim requires:
with garbage values 42 and 43 left by the allocator, the inserted node is
[some 9, some 42, some 43], whose second and third slots are not vacant. -/
theorem add_observer_junk_slots_not_vacant :
    add_observer [[some 1, some 2, some 3]] 9 (some 42) (some 43) =
      [[some 1, some 2, some 3], [some 9, some 42, some 43]] ∧
    (some 42 : Option Nat) ≠ none ∧ (some 43 : Option Nat) ≠ none :=
  ⟨rfl, by decide, by decide⟩

end CspChan
